import Mathlib

/-!
Verification development for the prompt-based moderation pipeline.

Shallow embedding of:
  * services/lightweight-filter/app/main.py  (KeywordFilter, ProfanityFilter,
    RateLimitFilter, LightweightFilter.process_message, /filter endpoint)
  * services/decision-handler/app/main.py    (DecisionHandler: thresholds,
    severity map, _get_base_action, _escalate_action, determine_action,
    create_tables DDL, update_user_history upsert)
  * services/chat-simulator/app/main.py      (ModerationClient.send_to_filter)
  * services/mcp-server/app/main.py          (ValidationService.validate_input,
    PromptTemplate, LLMClient.generate_response, MCPServer.
    process_moderation_request including the JSON-extraction fallback ladder)

Machine reals (Python floats) are modelled as rationals; wall-clock quantities
(`processing_time_ms`) and the `matched_patterns` bookkeeping lists, which no
verified property reads, are omitted from the embedded response records.
-/

attribute [local semireducible] Rat.mul Rat.inv Rat.add Rat.sub

namespace Moderation

/-! ### Character classes of the Python regexes (ASCII inputs) -/

/-- Python regex `\w` for the ASCII inputs considered: `[A-Za-z0-9_]`. -/
def isWordChar (c : Char) : Bool := c.isAlpha || c.isDigit || c == '_'

/-- Python regex `\s`: `[ \t\n\r\f\v]`. -/
def isSpaceChar (c : Char) : Bool :=
  c == ' ' || c == '\t' || c == '\n' || c == '\r' || c == '\x0b' || c == '\x0c'

/-- The characters `\x7b` and `\x7d` (braces), named to use in code. -/
def lbrace : Char := Char.ofNat 123

def rbrace : Char := Char.ofNat 125

/-! ### A small regular-expression engine

The filter's compiled patterns only use literals, character classes,
one-or-more repetition of a class, alternation, option and word boundaries,
so the engine provides exactly those.  `RE.run r s` returns the suffixes of
`s` left after matching `r` against some prefix of `s`. -/

inductive RE where
  | eps : RE
  | cls : (Char → Bool) → RE
  | plus : (Char → Bool) → RE
  | seq : RE → RE → RE
  | alt : RE → RE → RE
  | opt : RE → RE

/-- Suffixes after consuming one or more characters of class `p`. -/
def plusRun (p : Char → Bool) : List Char → List (List Char)
  | [] => []
  | c :: s => if p c then s :: plusRun p s else []

def RE.run : RE → List Char → List (List Char)
  | .eps, s => [s]
  | .cls _, [] => []
  | .cls p, c :: s => if p c then [s] else []
  | .plus p, s => plusRun p s
  | .seq a b, s => (RE.run a s).flatMap (RE.run b)
  | .alt a b, s => RE.run a s ++ RE.run b s
  | .opt r, s => s :: RE.run r s

/-- A compiled pattern: a core expression plus leading/trailing `\b`. -/
structure Pat where
  core : RE
  lb : Bool
  rb : Bool

/-- Python `\b` at position `i` of `s`: word-ness changes between the
character before `i` and the character at `i` (out of range counts as
non-word). -/
def boundaryAt (s : List Char) (i : Nat) : Bool :=
  let left := if i = 0 then false else isWordChar (s.getD (i - 1) ' ')
  let right := isWordChar (s.getD i ' ')
  left != right

/-- `re.search` as a boolean: some match of the pattern starts at some
position, with the word boundaries satisfied. -/
def patSearch (p : Pat) (s : List Char) : Bool :=
  (List.range (s.length + 1)).any fun i =>
    (!p.lb || boundaryAt s i) &&
    ((RE.run p.core (s.drop i)).any fun rest =>
      !p.rb || boundaryAt s (s.length - rest.length))

/-- Case-insensitive single character (patterns compiled with
`re.IGNORECASE`); `c` is given in lowercase. -/
def chI (c : Char) : RE := .cls (fun x => x.toLower == c)

/-- Case-sensitive single character. -/
def chC (c : Char) : RE := .cls (fun x => x == c)

def litI (w : String) : RE := w.data.foldr (fun c r => .seq (chI c) r) .eps

/-- `\s+` -/
def wsPlus : RE := .plus isSpaceChar

/-- `\d{n}` -/
def repDigits : Nat → RE
  | 0 => .eps
  | n + 1 => .seq (.cls Char.isDigit) (repDigits n)

/-! ### KeywordFilter default configuration
(`KeywordFilter._load_default_config`, used when
`/app/config/filter_config.yaml` is absent). -/

def bannedWords : List String :=
  ["spam", "scam", "fake", "bot", "hack", "cheat",
   "idiot", "stupid", "moron", "loser", "noob"]

/-- `_load_default_config` sets no whitelist; `__init__` leaves it empty. -/
def whitelistWords : List String := []

/-- `\b(kill\s+yourself|kys)\b`, `\b(go\s+die|die\s+in\s+a\s+fire)\b`,
`\b(hate\s+you|you\s+suck)\b`, all `re.IGNORECASE`. -/
def toxicPatterns : List Pat :=
  [⟨.alt (.seq (litI ("kill")) (.seq wsPlus (litI ("yourself")))) (litI ("kys")),
    true, true⟩,
   ⟨.alt (.seq (litI ("go")) (.seq wsPlus (litI ("die"))))
        (.seq (litI ("die")) (.seq wsPlus (.seq (litI ("in"))
          (.seq wsPlus (.seq (litI ("a")) (.seq wsPlus (litI ("fire")))))))),
    true, true⟩,
   ⟨.alt (.seq (litI ("hate")) (.seq wsPlus (litI ("you"))))
        (.seq (litI ("you")) (.seq wsPlus (litI ("suck")))),
    true, true⟩]

def moneybag : Char := Char.ofNat 0x1F4B0

def partyPopper : Char := Char.ofNat 0x1F389

def dblExclaim : Char := Char.ofNat 0x203C

def varSelector : Char := Char.ofNat 0xFE0F

/-- `(bit\.ly|tinyurl|t\.co)/\w+`, `(free\s+money|click\s+here|buy\s+now)`,
and the emoji-repeat pattern (the `{2,}` binds to the last code point of
each emoji sequence), all `re.IGNORECASE`. -/
def spamPatterns : List Pat :=
  [⟨.seq (.alt (litI ("bit.ly")) (.alt (litI ("tinyurl")) (litI ("t.co"))))
        (.seq (chC '/') (.plus isWordChar)), false, false⟩,
   ⟨.alt (.seq (litI ("free")) (.seq wsPlus (litI ("money"))))
        (.alt (.seq (litI ("click")) (.seq wsPlus (litI ("here"))))
              (.seq (litI ("buy")) (.seq wsPlus (litI ("now"))))), false, false⟩,
   ⟨.alt (.seq (chC moneybag) (.plus (fun x => x == moneybag)))
        (.alt (.seq (chC partyPopper) (.plus (fun x => x == partyPopper)))
              (.seq (chC dblExclaim)
                    (.seq (chC varSelector) (.plus (fun x => x == varSelector))))),
    false, false⟩]

/-- `[A-Za-z0-9._%+-]` -/
def emailLocalChar (c : Char) : Bool :=
  c.isAlpha || c.isDigit || c == '.' || c == '_' || c == '%' || c == '+' || c == '-'

/-- `[A-Za-z0-9.-]` -/
def emailDomainChar (c : Char) : Bool :=
  c.isAlpha || c.isDigit || c == '.' || c == '-'

/-- `[A-Z|a-z]` — the class in the source literally contains the bar. -/
def emailTldChar (c : Char) : Bool := c.isAlpha || c == '|'

/-- `[-\s]` -/
def dashOrSpace (c : Char) : Bool := c == '-' || isSpaceChar c

/-- Email `\b[A-Za-z0-9._%+-]+@[A-Za-z0-9.-]+\.[A-Z|a-z]{2,}\b`,
phone `\b\d{3}-\d{3}-\d{4}\b`,
card `\b\d{4}[-\s]?\d{4}[-\s]?\d{4}[-\s]?\d{4}\b`,
SSN `\b\d{3}-\d{2}-\d{4}\b` (compiled without `IGNORECASE`). -/
def piiPatterns : List Pat :=
  [⟨.seq (.plus emailLocalChar)
        (.seq (chC '@')
          (.seq (.plus emailDomainChar)
            (.seq (chC '.') (.seq (.cls emailTldChar) (.plus emailTldChar))))),
    true, true⟩,
   ⟨.seq (repDigits 3) (.seq (chC '-') (.seq (repDigits 3) (.seq (chC '-') (repDigits 4)))),
    true, true⟩,
   ⟨.seq (repDigits 4)
        (.seq (.opt (.cls dashOrSpace))
          (.seq (repDigits 4)
            (.seq (.opt (.cls dashOrSpace))
              (.seq (repDigits 4) (.seq (.opt (.cls dashOrSpace)) (repDigits 4)))))),
    true, true⟩,
   ⟨.seq (repDigits 3) (.seq (chC '-') (.seq (repDigits 2) (.seq (chC '-') (repDigits 4)))),
    true, true⟩]

/-! ### Word tokenization and the word-list filters -/

/-- `re.findall(r'\b\w+\b', message)`: the maximal runs of word characters.
`cur` accumulates the current run reversed. -/
def tokenizeAux : List Char → List Char → List String
  | cur, [] => if cur.isEmpty then [] else [String.mk cur.reverse]
  | cur, c :: s =>
    if isWordChar c then tokenizeAux (c :: cur) s
    else if cur.isEmpty then tokenizeAux [] s
    else String.mk cur.reverse :: tokenizeAux [] s

def wordTokens (s : String) : List String := tokenizeAux [] s.data

/-- Python `str.lower` on the ASCII inputs considered. -/
def lowerStr (s : String) : String := String.mk (s.data.map Char.toLower)

/-- `KeywordFilter.check_banned_words`: words of the lowercased message that
are banned and not whitelisted; the flag is their non-emptiness. -/
def checkBannedWords (m : String) : Bool × List String :=
  let matched := (wordTokens (lowerStr m)).filter
    (fun w => bannedWords.contains w && !whitelistWords.contains w)
  (!matched.isEmpty, matched)

/-- `KeywordFilter.check_patterns` as the hit flag (`len(matched) > 0`);
the matched-substring list, read by nothing verified here, is elided. -/
def checkPatterns (m : String) (ps : List Pat) : Bool :=
  ps.any fun p => patSearch p m.data

/-- `ProfanityFilter` default word list (`load_profanity_list` fallback). -/
def profanityWords : List String := ["damn", "hell", "crap", "stupid", "idiot"]

/-- `ProfanityFilter.contains_profanity` as the hit flag. -/
def containsProfanity (m : String) : Bool :=
  (wordTokens (lowerStr m)).any fun w => profanityWords.contains w

/-! ### KeywordFilter.filter_message -/

structure KeywordResult where
  should_process : Bool
  filter_decision : String
  confidence : ℚ
deriving DecidableEq

/-- `KeywordFilter.filter_message`: PII wins, then toxic/banned, then spam,
then pass. -/
def keywordFilterMessage (m : String) : KeywordResult :=
  let hasBanned := (checkBannedWords m).1
  let hasToxic := checkPatterns m toxicPatterns
  let hasSpam := checkPatterns m spamPatterns
  let hasPii := checkPatterns m piiPatterns
  if hasPii then ⟨false, "block_pii", 95 / 100⟩
  else if hasToxic || hasBanned then ⟨true, "likely_toxic", 8 / 10⟩
  else if hasSpam then ⟨true, "likely_spam", 7 / 10⟩
  else ⟨true, "pass", 6 / 10⟩

/-! ### RateLimitFilter -/

def rateLimitWindow : ℚ := 60

def maxMessagesPerWindow : Nat := 10

/-- Removal of timestamps older than the window
(`current_time - timestamp < self.rate_limit_window` keeps an entry). -/
def pruneBucket (now : ℚ) (b : List ℚ) : List ℚ :=
  b.filter fun t => now - t < rateLimitWindow

/-- The body of `RateLimitFilter.is_rate_limited` on one user's bucket:
prune, append the current timestamp, then compare against the capacity. -/
def rlCheck (now : ℚ) (b : List ℚ) : Bool × List ℚ :=
  let b2 := pruneBucket now b ++ [now]
  (decide (maxMessagesPerWindow < b2.length), b2)

/-- `self.user_message_counts`: per-user buckets, a missing key reads as `[]`
(the dict get-or-create). -/
def RLState := String → List ℚ

/-- `RateLimitFilter.is_rate_limited`. -/
def isRateLimited (st : RLState) (uid : String) (now : ℚ) : Bool × RLState :=
  let r := rlCheck now (st uid)
  (r.1, Function.update st uid r.2)

/-! ### LightweightFilter.process_message -/

structure FilterRequest where
  user_id : String
  message : String

structure FilterResponse where
  should_process : Bool
  filter_decision : String
  confidence : ℚ
  filter_type : String
deriving DecidableEq

/-- `LightweightFilter.process_message` with the default
`enabled_filters` (all three enabled): rate limit first, then the keyword
filter (returning immediately when it blocks), then profanity, then the
combined decision. -/
def processMessage (st : RLState) (now : ℚ) (req : FilterRequest) : FilterResponse × RLState :=
  let rl := isRateLimited st req.user_id now
  if rl.1 then
    (⟨false, "rate_limited", 1, "rate_limit"⟩, rl.2)
  else
    let kr := keywordFilterMessage req.message
    if !kr.should_process then
      (⟨false, kr.filter_decision, kr.confidence, "keyword"⟩, rl.2)
    else
      let prof := containsProfanity req.message
      if kr.filter_decision == "likely_toxic" || prof then
        (⟨true, "flagged", max kr.confidence (if prof then 7 / 10 else 0), "combined"⟩, rl.2)
      else
        (⟨true, "pass", 9 / 10, "combined"⟩, rl.2)

/-- A sequence of `/filter` calls: timestamps with requests, threaded through
the rate-limit state. -/
def runFilter : RLState → List (ℚ × FilterRequest) → List FilterResponse × RLState
  | st, [] => ([], st)
  | st, (t, req) :: rest =>
    let r := processMessage st t req
    let rs := runFilter r.2 rest
    (r.1 :: rs.1, rs.2)

/-- The same sequence seen by a single user's bucket
(`is_rate_limited` iterated on one key). -/
def runBucket : List ℚ → List ℚ → List Bool × List ℚ
  | b, [] => ([], b)
  | b, t :: ts =>
    let r := rlCheck t b
    let rs := runBucket r.2 ts
    (r.1 :: rs.1, rs.2)

/-! ## Decision handler (services/decision-handler/app/main.py) -/

/-- `self.action_thresholds` with the `dict.get(action, 1.0)` default. -/
def actionThresholds (a : String) : ℚ :=
  if a = "warn" then 3 / 10
  else if a = "timeout" then 6 / 10
  else if a = "kick" then 8 / 10
  else if a = "ban" then 9 / 10
  else 1

/-- `self.severity_actions` with the `dict.get(severity, ["warn"])` default. -/
def severityActions (s : String) : List String :=
  if s = "low" then ["warn"]
  else if s = "medium" then ["warn", "timeout"]
  else if s = "high" then ["timeout", "kick"]
  else if s = "critical" then ["kick", "ban"]
  else ["warn"]

/-- The loop order of `_get_base_action`. -/
def actionOrder : List String := ["ban", "kick", "timeout", "warn"]

/-- The loop of `_get_base_action`: first action in `order` that is in the
severity's set and whose threshold is met; fall back to `"warn"`. -/
def firstAction (conf : ℚ) (avail : List String) : List String → String
  | [] => "warn"
  | a :: rest =>
    if avail.contains a && decide (actionThresholds a ≤ conf) then a
    else firstAction conf avail rest

/-- `DecisionHandler._get_base_action`. -/
def getBaseAction (conf : ℚ) (sev : String) : String :=
  firstAction conf (severityActions sev) actionOrder

/-- `DecisionHandler._escalate_action`
(`escalation_map.get(base_action, base_action)`). -/
def escalateAction (a : String) : String :=
  if a = "warn" then "timeout"
  else if a = "timeout" then "kick"
  else if a = "kick" then "ban"
  else if a = "ban" then "ban"
  else a

structure ModerationDecision where
  user_id : String
  decision : String
  confidence : ℚ
  severity : String

/-- `DecisionHandler.determine_action`: `history` is the loaded
`user_violations` row's `violation_count` (absent row reads as `none`;
a present row's count is taken with `dict.get('violation_count', 0)`). -/
def determineAction (history : Option Nat) (d : ModerationDecision) : String :=
  let base := getBaseAction d.confidence d.severity
  match history with
  | some vc => if 5 < vc then escalateAction base else base
  | none => base

/-- Position of an action in the order `warn < timeout < kick < ban`. -/
def actionRank (a : String) : Nat :=
  if a = "warn" then 0
  else if a = "timeout" then 1
  else if a = "kick" then 2
  else if a = "ban" then 3
  else 0

/-! ### user_violations persistence -/

structure ViolationRow where
  user_id : String
  violation_count : Nat
  total_score : ℚ
deriving DecidableEq

/-- The part of the `create_tables` DDL that decides upsert behaviour:
`CREATE TABLE user_violations` declares `user_id VARCHAR(255) NOT NULL`
with no UNIQUE constraint, and the separate
`CREATE INDEX idx_user_violations_user_id` is a plain (non-unique) index,
so no unique or exclusion constraint exists on `user_id`. -/
structure UserViolationsSchema where
  uniqueUserId : Bool

def createTablesSchema : UserViolationsSchema := ⟨false⟩

/-- `DecisionHandler.update_user_history`:
`INSERT INTO user_violations ... VALUES ($1, 1, $2, ...) ON CONFLICT
(user_id) DO UPDATE SET violation_count = violation_count + 1,
total_score = total_score + $2, ...` under PostgreSQL semantics: an
`ON CONFLICT (user_id)` arbiter must be inferred from a unique or
exclusion constraint on `user_id`; when the schema has none the statement
fails (SQLSTATE 42P10) and the table is unchanged.  With such a
constraint, the statement inserts a fresh row with count 1 or takes the
conflict branch on the existing row. -/
def updateUserHistory (schema : UserViolationsSchema) (tbl : List ViolationRow)
    (uid : String) (conf : ℚ) : Except String (List ViolationRow) :=
  if schema.uniqueUserId = false then
    .error ("there is no unique or exclusion constraint matching the ON CONFLICT specification")
  else if tbl.any (fun r => r.user_id = uid) then
    .ok (tbl.map fun r =>
      if r.user_id = uid then ⟨r.user_id, r.violation_count + 1, r.total_score + conf⟩ else r)
  else
    .ok (tbl ++ [⟨uid, 1, conf⟩])

/-- The history side of one `/process` call (`process_decision`): the
background task runs `update_user_history` only when
`decision.confidence > 0.5`; a failing background task is logged by the
framework and leaves the table unchanged. -/
def processDecisionHistory (schema : UserViolationsSchema) (tbl : List ViolationRow)
    (uid : String) (conf : ℚ) : List ViolationRow :=
  if (1 : ℚ) / 2 < conf then
    match updateUserHistory schema tbl uid conf with
    | .ok t => t
    | .error _ => tbl
  else tbl

/-- N processed decisions for one user, given their confidences. -/
def runDecisions (schema : UserViolationsSchema) (uid : String) :
    List ViolationRow → List ℚ → List ViolationRow
  | tbl, [] => tbl
  | tbl, c :: cs => runDecisions schema uid (processDecisionHistory schema tbl uid c) cs

/-- Number of `user_violations` rows for a user. -/
def rowsFor (tbl : List ViolationRow) (uid : String) : Nat :=
  (tbl.filter fun r => r.user_id = uid).length

/-! ## Chat-simulator moderation client (services/chat-simulator/app/main.py) -/

/-- The dict `ModerationClient.send_to_filter` evaluates to: on success the
parsed `FilterResponse` body (whose `confidence` key is always present), on
any exception the literal fallback
`{"should_process": True, "filter_decision": "pass"}` — which carries no
`confidence` key at all. -/
structure ClientFilterResult where
  should_process : Bool
  filter_decision : String
  confidence : Option ℚ
deriving DecidableEq

/-- `ModerationClient.send_to_filter`: the argument is the outcome of the
HTTP call to the filter service (`raise_for_status` turns an error status
into an exception, so a failing service call arrives as `.error`). -/
def sendToFilter (svc : Except String FilterResponse) : ClientFilterResult :=
  match svc with
  | .ok r => ⟨r.should_process, r.filter_decision, some r.confidence⟩
  | .error _ => ⟨true, "pass", none⟩

/-- The `/filter` endpoint handler (`filter_message` in the filter service):
a successful `process_message` result is returned as-is; an exception during
filtering is re-raised as `HTTPException(status_code=500, detail=str(e))` —
the endpoint itself has no fail-open path. -/
def filterEndpoint (inner : Except String FilterResponse) : Except (Nat × String) FilterResponse :=
  match inner with
  | .ok r => .ok r
  | .error e => .error (500, e)

/-! ## MCP server (services/mcp-server/app/main.py) -/

/-- Case-sensitive list prefix test. -/
def isPrefixList : List Char → List Char → Bool
  | [], _ => true
  | _ :: _, [] => false
  | a :: as, b :: bs => a == b && isPrefixList as bs

/-- Python `needle in hay` on strings: some suffix of `hay` starts with
`needle`. -/
def containsSub : List Char → List Char → Bool
  | needle, [] => needle.isEmpty
  | needle, s@(_ :: rest) => isPrefixList needle s || containsSub needle rest

def strContains (hay needle : String) : Bool := containsSub needle.data hay.data

/-- `ValidationService` injection blacklist. -/
def injectionPatterns : List String :=
  ["ignore previous instructions", "system:", "assistant:", "user:",
   "prompt:", "###", "---"]

structure ModerationRequest where
  message : String
  user_id : String
  channel_id : String
  template_name : String

/-- `ValidationService.validate_input`: reject when the lowercased message
contains an injection pattern, or when the message exceeds 2000 characters. -/
def validateInput (req : ModerationRequest) : Bool :=
  let m := lowerStr req.message
  if injectionPatterns.any (fun p => strContains m p) then false
  else if 2000 < req.message.length then false
  else true

/-! ### Prompt templates -/

structure Template where
  version : String
  prompt : String

/-- `PromptTemplate._get_default_templates` (used when
`/app/templates/moderation_templates.yaml` is absent). -/
def defaultTemplates : List (String × Template) :=
  [("moderation_prompt",
    ⟨"1.0",
     "Classify the following message for toxicity:\n'\x7bchat_message\x7d'\n\nRespond with JSON format:\n\x7b\"decision\": \"[Toxic/Non-Toxic]\", \"confidence\": 0.95, \"reasoning\": \"explanation\"\x7d"⟩)]

/-- `PromptTemplate.get_template`:
`templates.get(name, templates.get("moderation_prompt"))`; the default
catalogue always carries `moderation_prompt`, so the final fallback is
never taken. -/
def getTemplate (name : String) : Template :=
  (((defaultTemplates.lookup name).orElse
      (fun _ => defaultTemplates.lookup ("moderation_prompt"))).getD ⟨"", ""⟩)

/-- Python `str.replace` (all non-overlapping occurrences, left to right);
fuel is the length of the subject, enough since each step either emits one
character or consumes the non-empty needle. -/
def replaceAllF (needle repl : List Char) : Nat → List Char → List Char
  | _, [] => []
  | 0, s => s
  | fuel + 1, s@(c :: r) =>
    if !needle.isEmpty && isPrefixList needle s then
      repl ++ replaceAllF needle repl fuel (s.drop needle.length)
    else c :: replaceAllF needle repl fuel r

def strReplace (s needle repl : String) : String :=
  String.mk (replaceAllF needle.data repl.data s.data.length s.data)

/-- `PromptTemplate.format_prompt` with the keyword arguments
`chat_message`, `user_id`, `channel_id` passed by
`process_moderation_request` (plain `{key}` → value replacement, applied
in that order). -/
def formatPrompt (name msg uid cid : String) : String :=
  strReplace (strReplace (strReplace (getTemplate name).prompt
    ("\x7bchat_message\x7d") msg) ("\x7buser_id\x7d") uid) ("\x7bchannel_id\x7d") cid

/-! ### JSON values and `json.loads`

A recursive-descent parser for the JSON subset the service exchanges
(objects, arrays, strings with the single-character escapes, numbers,
booleans, null; `\uXXXX` escapes are not consumed and fail the parse —
no verified input contains them).  Fuel bounds the recursion depth and
exceeds any depth reachable from the input length. -/

inductive Json where
  | null : Json
  | bool : Bool → Json
  | num : ℚ → Json
  | str : String → Json
  | arr : List Json → Json
  | obj : List (String × Json) → Json

def isJsonWS (c : Char) : Bool := c == ' ' || c == '\t' || c == '\n' || c == '\r'

def skipJWS (s : List Char) : List Char := s.dropWhile isJsonWS

/-- The two-character escapes of JSON, as escape letter paired with the
denoted character. -/
def escapeTable : List (Char × Char) :=
  [('"', '"'), ('\\', '\\'), ('/', '/'), ('n', '\n'), ('t', '\t'),
   ('r', '\r'), ('b', Char.ofNat 8), ('f', Char.ofNat 12)]

def escChar (c : Char) : Option Char := escapeTable.lookup c

/-- String body after the opening quote: content characters and the rest
after the closing quote. -/
def parseStrAux : List Char → Option (List Char × List Char)
  | [] => none
  | '"' :: r => some ([], r)
  | '\\' :: c :: r =>
    match escChar c with
    | none => none
    | some e => (parseStrAux r).map fun p => (e :: p.1, p.2)
  | c :: r => (parseStrAux r).map fun p => (c :: p.1, p.2)

def digVal (c : Char) : Nat := c.toNat - '0'.toNat

def natOfDigits (ds : List Char) : Nat := ds.foldl (fun n c => n * 10 + digVal c) 0

def parseExpPart (v : ℚ) (r : List Char) : Option (ℚ × List Char) :=
  let p : Bool × List Char :=
    match r with
    | '+' :: r2 => (true, r2)
    | '-' :: r2 => (false, r2)
    | _ => (true, r)
  let es := p.2.takeWhile Char.isDigit
  if es.isEmpty then none
  else
    let e := natOfDigits es
    some (if p.1 then v * (10 : ℚ) ^ e else v * ((10 : ℚ) ^ e)⁻¹, p.2.dropWhile Char.isDigit)

def parseNum (s : List Char) : Option (ℚ × List Char) :=
  let sg : ℚ × List Char := match s with | '-' :: r => (-1, r) | _ => (1, s)
  let ds := sg.2.takeWhile Char.isDigit
  let r1 := sg.2.dropWhile Char.isDigit
  if ds.isEmpty then none
  else
    let frac : Option (ℚ × List Char) :=
      match r1 with
      | '.' :: r2 =>
        let fs := r2.takeWhile Char.isDigit
        if fs.isEmpty then none
        else some ((natOfDigits ds : ℚ) + (natOfDigits fs : ℚ) / (10 : ℚ) ^ fs.length,
                   r2.dropWhile Char.isDigit)
      | _ => some ((natOfDigits ds : ℚ), r1)
    match frac with
    | none => none
    | some (v, r2) =>
      match r2 with
      | 'e' :: r3 => (parseExpPart v r3).map fun p => (sg.1 * p.1, p.2)
      | 'E' :: r3 => (parseExpPart v r3).map fun p => (sg.1 * p.1, p.2)
      | _ => some (sg.1 * v, r2)

mutual

def parseVal : Nat → List Char → Option (Json × List Char)
  | 0, _ => none
  | fuel + 1, s =>
    match skipJWS s with
    | [] => none
    | c :: r =>
      if c == lbrace then
        match skipJWS r with
        | d :: r2 =>
          if d == rbrace then some (.obj [], r2)
          else (parseMembers fuel (skipJWS r)).map fun p => (Json.obj p.1, p.2)
        | [] => none
      else if c == '[' then
        match skipJWS r with
        | ']' :: r2 => some (.arr [], r2)
        | _ => (parseItems fuel (skipJWS r)).map fun p => (Json.arr p.1, p.2)
      else if c == '"' then
        (parseStrAux r).map fun p => (Json.str (String.mk p.1), p.2)
      else if c == 't' then
        if isPrefixList ("rue").data r then some (.bool true, r.drop 3) else none
      else if c == 'f' then
        if isPrefixList ("alse").data r then some (.bool false, r.drop 4) else none
      else if c == 'n' then
        if isPrefixList ("ull").data r then some (.null, r.drop 3) else none
      else
        (parseNum (c :: r)).map fun p => (Json.num p.1, p.2)

def parseMembers : Nat → List Char → Option (List (String × Json) × List Char)
  | 0, _ => none
  | fuel + 1, s =>
    match skipJWS s with
    | '"' :: r =>
      match parseStrAux r with
      | none => none
      | some (kcs, r2) =>
        match skipJWS r2 with
        | ':' :: r3 =>
          match parseVal fuel r3 with
          | none => none
          | some (v, r4) =>
            match skipJWS r4 with
            | [] => none
            | d :: r5 =>
              if d == ',' then
                (parseMembers fuel r5).map fun p => ((String.mk kcs, v) :: p.1, p.2)
              else if d == rbrace then some ([(String.mk kcs, v)], r5)
              else none
        | _ => none
    | _ => none

def parseItems : Nat → List Char → Option (List Json × List Char)
  | 0, _ => none
  | fuel + 1, s =>
    match parseVal fuel s with
    | none => none
    | some (v, r) =>
      match skipJWS r with
      | ',' :: r2 => (parseItems fuel r2).map fun p => (v :: p.1, p.2)
      | ']' :: r2 => some ([v], r2)
      | _ => none

end

/-- `json.loads`: parse one value, allow trailing whitespace only. -/
def jsonLoads (s : String) : Option Json :=
  match parseVal (s.data.length + 2) s.data with
  | some (j, rest) => if (skipJWS rest).isEmpty then some j else none
  | none => none

/-! ### Fallback JSON extraction (`process_moderation_request`)

The four `re.search` patterns, compiled with `re.DOTALL | re.IGNORECASE`:
1. `r'```json\s*(\{.*?\})\s*```'`
2. `r'```\s*(\{.*?\})\s*```'`
3. `r'(\{[^{}]*"decision"[^{}]*\})'`
4. `r'(\{.*?"decision".*?\})'`
Each searcher below returns the captured group of the leftmost match,
following the engine's backtracking order: earliest start position, lazy
quantifiers expand minimally; a `\s*` run directly followed by a literal
that contains no whitespace character matches deterministically. -/

/-- Case-insensitive literal at the head; returns the rest. -/
def litIAt : List Char → List Char → Option (List Char)
  | [], s => some s
  | _ :: _, [] => none
  | a :: as, b :: bs => if a.toLower == b.toLower then litIAt as bs else none

/-- Case-insensitive substring test. -/
def containsLitI : List Char → List Char → Bool
  | needle, [] => needle.isEmpty
  | needle, s@(_ :: rest) => (litIAt needle s).isSome || containsLitI needle rest

def dropWS (s : List Char) : List Char := s.dropWhile isSpaceChar

/-- After a candidate `}`: does `\s*` then ``` ``` ``` follow? -/
def fenceCloses (r : List Char) : Bool := (litIAt ("```").data (dropWS r)).isSome

/-- `.*?\}` with the fence closing after: expand the lazy `.*?` one
character at a time, stopping at the first `}` whose tail closes the
fence; `acc` is the group text consumed so far. -/
def lazyFindClose : List Char → List Char → Option (List Char)
  | _, [] => none
  | acc, c :: r =>
    if c == rbrace && fenceCloses r then some (acc ++ [c])
    else lazyFindClose (acc ++ [c]) r

/-- After the opening fence literal: `\s*` then `\{.*?\}` (patterns 1/2). -/
def fencedBodyAt (r1 : List Char) : Option (List Char) :=
  match dropWS r1 with
  | [] => none
  | c :: r2 => if c == lbrace then lazyFindClose [c] r2 else none

def p1At (s : List Char) : Option (List Char) :=
  (litIAt ("```json").data s).bind fencedBodyAt

def p2At (s : List Char) : Option (List Char) :=
  (litIAt ("```").data s).bind fencedBodyAt

/-- `\{[^{}]*"decision"[^{}]*\}` at the head: the run up to the first brace
after the opening one must end at `}` and contain `"decision"`. -/
def p3At (s : List Char) : Option (List Char) :=
  match s with
  | [] => none
  | c :: r =>
    if c == lbrace then
      let mid := r.takeWhile fun x => x != lbrace && x != rbrace
      match r.dropWhile (fun x => x != lbrace && x != rbrace) with
      | d :: _ =>
        if d == rbrace && containsLitI ("\"decision\"").data mid then
          some (c :: (mid ++ [d]))
        else none
      | [] => none
    else none

/-- Lazy `.*?` then a case-insensitive literal: earliest occurrence;
returns the consumed text (with the literal as it appears) and the rest. -/
def lazyFindLitI (lit : List Char) : List Char → List Char → Option (List Char × List Char)
  | acc, [] => if lit.isEmpty then some (acc, []) else none
  | acc, s@(c :: r) =>
    match litIAt lit s with
    | some rest => some (acc ++ s.take lit.length, rest)
    | none => lazyFindLitI lit (acc ++ [c]) r

/-- Lazy `.*?` then a single character: earliest occurrence, consumed text
included. -/
def lazyFindChar (target : Char) : List Char → List Char → Option (List Char)
  | _, [] => none
  | acc, c :: r => if c == target then some (acc ++ [c]) else lazyFindChar target (acc ++ [c]) r

/-- `\{.*?"decision".*?\}` at the head (pattern 4). -/
def p4At (s : List Char) : Option (List Char) :=
  match s with
  | [] => none
  | c :: r =>
    if c == lbrace then
      match lazyFindLitI ("\"decision\"").data [] r with
      | none => none
      | some (consumed, rest) =>
        (lazyFindChar rbrace [] rest).map fun tail => c :: (consumed ++ tail)
    else none

/-- `re.search`: try the pattern at each start position, leftmost first. -/
def scanFirst (f : List Char → Option (List Char)) : List Char → Option (List Char)
  | [] => f []
  | s@(_ :: rest) =>
    match f s with
    | some g => some g
    | none => scanFirst f rest

def searchP1 (content : String) : Option String := (scanFirst p1At content.data).map String.mk

def searchP2 (content : String) : Option String := (scanFirst p2At content.data).map String.mk

def searchP3 (content : String) : Option String := (scanFirst p3At content.data).map String.mk

def searchP4 (content : String) : Option String := (scanFirst p4At content.data).map String.mk

/-- Python truthiness of a parsed JSON value (`if not response_data`). -/
def pyTruthy : Json → Bool
  | .null => false
  | .bool b => b
  | .num q => decide (q ≠ 0)
  | .str s => !s.isEmpty
  | .arr xs => !xs.isEmpty
  | .obj fs => !fs.isEmpty

/-- The keyword phrase lists of the last-resort text analysis. -/
def toxicIndicatorPhrases : List String :=
  ["\"decision\": \"toxic\"", "decision is toxic", "classify as toxic",
   "this is toxic", "message is toxic", "contains toxic", "toxic content",
   "personal attack", "harassment", "hate speech", "inappropriate"]

def nonToxicIndicatorPhrases : List String :=
  ["\"decision\": \"non-toxic\"", "decision is non-toxic", "not toxic",
   "safe message", "no toxicity", "appropriate content", "friendly", "greeting"]

/-- The last-resort branch: keyword-classify the lowercased content. -/
def keywordAnalysis (content : String) : Json :=
  let cl := lowerStr content
  if toxicIndicatorPhrases.any (fun p => strContains cl p) then
    .obj [("decision", .str ("Toxic")), ("confidence", .num (7 / 10)),
          ("reasoning", .str ("Text analysis - toxic indicators found"))]
  else if nonToxicIndicatorPhrases.any (fun p => strContains cl p) then
    .obj [("decision", .str ("Non-Toxic")), ("confidence", .num (7 / 10)),
          ("reasoning", .str ("Text analysis - no toxic indicators"))]
  else
    .obj [("decision", .str ("Non-Toxic")), ("confidence", .num (1 / 2)),
          ("reasoning", .str ("Unable to determine from LLM response"))]

/-- The extraction loop: first captured group that `json.loads` accepts
(`break` on success, `continue` on `JSONDecodeError`, patterns in order). -/
def firstParsedGroup : List (Option String) → Option Json
  | [] => none
  | c :: rest =>
    match c.bind jsonLoads with
    | some j => some j
    | none => firstParsedGroup rest

/-- `response_data` as computed by `process_moderation_request`: direct
`json.loads`, else the four-pattern extraction loop, else (also when the
loop's parse is falsy, per `if not response_data`) the keyword analysis. -/
def extractResponseData (content : String) : Json :=
  match jsonLoads content with
  | some j => j
  | none =>
    match firstParsedGroup
        [searchP1 content, searchP2 content, searchP3 content, searchP4 content] with
    | some j => if pyTruthy j then j else keywordAnalysis content
    | none => keywordAnalysis content

/-! ### The `/moderate` processing path -/

structure HTTPError where
  status : Nat
  detail : String
deriving DecidableEq

structure ModerationResponse where
  decision : String
  confidence : ℚ
  reasoning : String
  template_version : String
deriving DecidableEq

/-- `dict.get` on an object (first binding; the verified inputs have no
duplicate keys). -/
def jsonGet (fs : List (String × Json)) (key : String) : Option Json :=
  fs.lookup key

/-- `response_data.get("decision", "Non-Toxic")` — the verified inputs
carry string-typed decisions. -/
def getDecision (fs : List (String × Json)) : String :=
  match jsonGet fs ("decision") with
  | some (.str s) => s
  | _ => "Non-Toxic"

/-- `response_data.get("confidence", 0.5)` — the verified inputs carry
numeric confidences. -/
def getConfidence (fs : List (String × Json)) : ℚ :=
  match jsonGet fs ("confidence") with
  | some (.num q) => q
  | _ => 1 / 2

/-- `response_data.get("reasoning", "")`. -/
def getReasoning (fs : List (String × Json)) : String :=
  match jsonGet fs ("reasoning") with
  | some (.str s) => s
  | _ => ""

/-- `LLMClient.generate_response`: the oracle stands for one round trip to
the backend; a deterministic failing backend fails each of the retries
identically, so after the loop the client raises
`HTTPException(503, "LLM service unavailable: ...")`. -/
def generateResponse (llm : String → Except String String) (prompt : String) :
    Except HTTPError String :=
  match llm prompt with
  | .ok c => .ok c
  | .error m => .error ⟨503, "LLM service unavailable: " ++ m⟩

/-- Starlette `str(HTTPException)`: `"{status_code}: {detail}"`. -/
def httpErrStr (e : HTTPError) : String := toString e.status ++ ": " ++ e.detail

/-- `MCPServer.process_moderation_request`, paired with whether the LLM
backend was called.  The whole body sits in `try ... except Exception as e:
raise HTTPException(status_code=500, detail=str(e))`, and `HTTPException`
is an `Exception` subclass, so the `HTTPException(400)` raised on failed
validation and the `HTTPException(503)` raised by the LLM client are both
caught and re-raised as status 500 with `str(e)` as detail.  A
`response_data` that is not a dict would raise `AttributeError` at
`.get` and surface as a 500 as well. -/
def processModerationRequest (llm : String → Except String String)
    (req : ModerationRequest) : Except HTTPError ModerationResponse × Bool :=
  if validateInput req then
    let tmpl := getTemplate req.template_name
    let prompt := formatPrompt req.template_name req.message req.user_id req.channel_id
    match generateResponse llm prompt with
    | .error e => (.error ⟨500, httpErrStr e⟩, true)
    | .ok content =>
      match extractResponseData content with
      | .obj fs =>
        (.ok ⟨getDecision fs, getConfidence fs, getReasoning fs, tmpl.version⟩, true)
      | _ => (.error ⟨500, "AttributeError: response_data has no attribute get"⟩, true)
  else
    (.error ⟨500, httpErrStr ⟨400, "Invalid input detected"⟩⟩, false)

/-! ### Concrete inputs used by the verified scenarios -/

/-- `violation_count` as read back by `get_user_history` (`SELECT ... WHERE
user_id = $1` reads one matching row; an absent row reads as zero). -/
def violationCountOf (tbl : List ViolationRow) (uid : String) : Nat :=
  match tbl.find? (fun r => r.user_id = uid) with
  | some r => r.violation_count
  | none => 0

/-- A 2001-character message (over the 2000-character limit). -/
def longMsg : String := String.mk (List.replicate 2001 'a')

/-- The LLM content of spec scenario 4: narrative text followed by a fenced
json block. -/
def fencedToxicContent : String :=
  "Sure - here is the answer: ```json\n\x7b\"decision\": \"Toxic\", \"confidence\": 0.92, \"reasoning\": \"slur\"\x7d\n```"

/-- Content holding an earlier brace-delimited object and a later fenced
json block: the fenced pattern is tried first, so the fenced object wins. -/
def twoObjectContent : String :=
  "Note \x7b\"decision\": \"Non-Toxic\", \"confidence\": 0.1\x7d looks wrong. ```json\n\x7b\"decision\": \"Toxic\", \"confidence\": 0.92\x7d\n```"

/-! ## Helper lemmas -/

/-- The `_get_base_action` loop picks the head of the eligible sublist of
the evaluation order, falling back to `"warn"`. -/
lemma firstAction_eq_filter_headD (conf : ℚ) (avail : List String) :
    ∀ l : List String,
      firstAction conf avail l =
        (l.filter fun a => avail.contains a && decide (actionThresholds a ≤ conf)).headD "warn" := by
  intro l
  induction l with
  | nil => rfl
  | cons a rest ih =>
    rw [show firstAction conf avail (a :: rest) =
          if avail.contains a && decide (actionThresholds a ≤ conf) then a
          else firstAction conf avail rest from rfl,
        List.filter_cons]
    cases h : (avail.contains a && decide (actionThresholds a ≤ conf)) with
    | false => simp [ih]
    | true => simp

/-- The loop's result is the fallback or a member of the candidate list. -/
lemma firstAction_mem (conf : ℚ) (avail : List String) :
    ∀ l : List String, firstAction conf avail l = "warn" ∨ firstAction conf avail l ∈ l := by
  intro l
  induction l with
  | nil => left; rfl
  | cons a rest ih =>
    rw [show firstAction conf avail (a :: rest) =
          if avail.contains a && decide (actionThresholds a ≤ conf) then a
          else firstAction conf avail rest from rfl]
    cases h : (avail.contains a && decide (actionThresholds a ≤ conf)) with
    | false =>
      rcases ih with hw | hm
      · left; simpa using hw
      · right; simp [hm]
    | true => right; simp

/-- `filter_message` yields exactly one of four verdict records. -/
lemma keywordFilterMessage_cases (m : String) :
    keywordFilterMessage m = ⟨false, "block_pii", 95 / 100⟩
    ∨ keywordFilterMessage m = ⟨true, "likely_toxic", 8 / 10⟩
    ∨ keywordFilterMessage m = ⟨true, "likely_spam", 7 / 10⟩
    ∨ keywordFilterMessage m = ⟨true, "pass", 6 / 10⟩ := by
  unfold keywordFilterMessage
  dsimp only
  split_ifs <;> simp

/-- The rate-limit state update is the same in every branch of
`process_message`. -/
lemma processMessage_state (st : RLState) (now : ℚ) (req : FilterRequest) :
    (processMessage st now req).2 = Function.update st req.user_id (rlCheck now (st req.user_id)).2 := by
  cases hb : (rlCheck now (st req.user_id)).1 <;>
    simp only [processMessage, isRateLimited, hb] <;>
    repeat' first | rfl | split

/-- The returned verdict is the rate-limited record exactly when the
bucket check fired. -/
lemma processMessage_verdict (st : RLState) (now : ℚ) (req : FilterRequest) :
    decide ((processMessage st now req).1 = ⟨false, "rate_limited", 1, "rate_limit"⟩) =
      (rlCheck now (st req.user_id)).1 := by
  cases hb : (rlCheck now (st req.user_id)).1 with
  | true =>
    apply decide_eq_true
    simp [processMessage, isRateLimited, hb]
  | false =>
    apply decide_eq_false
    simp only [processMessage, isRateLimited, hb]
    rcases keywordFilterMessage_cases req.message with hk | hk | hk | hk <;>
      cases hp : containsProfanity req.message <;>
      simp [hk, hp, FilterResponse.mk.injEq]

/-- A sequence of calls splits at an append. -/
lemma runBucket_append (ts : List ℚ) : ∀ (b : List ℚ) (us : List ℚ),
    runBucket b (ts ++ us) =
      ((runBucket b ts).1 ++ (runBucket (runBucket b ts).2 us).1,
       (runBucket (runBucket b ts).2 us).2) := by
  induction ts with
  | nil => intro b us; rfl
  | cons t ts ih =>
    intro b us
    simp only [List.cons_append, runBucket, List.append_eq, ih]

/-- After a sorted sequence of calls ending at time `T`, the bucket holds
exactly the timestamps of all the calls — accepted or rejected — within
the window of `T`. -/
lemma runBucket_bucket_eq : ∀ (ts : List ℚ) (T : ℚ),
    List.Sorted (· ≤ ·) (ts ++ [T]) →
    (runBucket [] (ts ++ [T])).2 = (ts ++ [T]).filter fun t => decide (T - t < rateLimitWindow) := by
  intro ts
  induction ts using List.reverseRecOn with
  | nil =>
    intro T _
    show (rlCheck T []).2 = _
    simp [rlCheck, pruneBucket, rateLimitWindow, List.filter]
  | append_singleton ts' T' ih =>
    intro T h
    have hparts := (@List.pairwise_append _ _ (ts' ++ [T']) [T]).mp h
    have hsorted' : List.Sorted (· ≤ ·) (ts' ++ [T']) := hparts.1
    have hle : ∀ a ∈ ts' ++ [T'], a ≤ T := fun a ha =>
      hparts.2.2 a ha T (List.mem_singleton.mpr rfl)
    have hT'T : T' ≤ T := hle T' (by simp)
    rw [runBucket_append (ts' ++ [T']) [] [T]]
    show (rlCheck T ((runBucket [] (ts' ++ [T'])).2)).2 = _
    rw [ih T' hsorted']
    show pruneBucket T ((ts' ++ [T']).filter fun t => decide (T' - t < rateLimitWindow)) ++ [T] = _
    rw [pruneBucket, List.filter_filter]
    have hcongr : ((ts' ++ [T']).filter fun t =>
        decide (T - t < rateLimitWindow) && decide (T' - t < rateLimitWindow)) =
        (ts' ++ [T']).filter fun t => decide (T - t < rateLimitWindow) := by
      apply List.filter_congr
      intro t _
      cases hf : decide (T - t < rateLimitWindow) with
      | false => rfl
      | true =>
        have h1 : T - t < rateLimitWindow := of_decide_eq_true hf
        have h2 : T' - t < rateLimitWindow :=
          lt_of_le_of_lt (by linarith) h1
        simp [h1, h2]
    have hTkeep : ([T].filter fun t => decide (T - t < rateLimitWindow)) = [T] := by
      have h1 : decide ((0 : ℚ) < rateLimitWindow) = true := rfl
      simp [List.filter, sub_self, h1]
    rw [hcongr, List.filter_append (ts' ++ [T']) [T], hTkeep]

/-- The last verdict of a call sequence is the capacity check on the final
bucket. -/
lemma runBucket_last_verdict (ts : List ℚ) (T : ℚ) :
    (runBucket [] (ts ++ [T])).1.getLast? =
      some (decide (maxMessagesPerWindow < (runBucket [] (ts ++ [T])).2.length)) := by
  rw [runBucket_append ts [] [T]]
  show ((runBucket [] ts).1 ++ [(rlCheck T ((runBucket [] ts).2)).1]).getLast? = _
  rw [List.getLast?_concat]
  rfl

/-- `process_message` iterated over calls of a single user tracks the
single-bucket run: the verdicts are rate-limited exactly where the bucket
run fires, and the user's bucket equals the bucket run's state. -/
lemma runFilter_const_user (u msg : String) : ∀ (times : List ℚ) (st : RLState),
    ((runFilter st (times.map fun t => (t, ⟨u, msg⟩))).1.map
        fun r => decide (r = ⟨false, "rate_limited", 1, "rate_limit"⟩)) = (runBucket (st u) times).1
    ∧ (runFilter st (times.map fun t => (t, ⟨u, msg⟩))).2 u = (runBucket (st u) times).2 := by
  intro times
  induction times with
  | nil => intro st; exact ⟨rfl, rfl⟩
  | cons t ts ih =>
    intro st
    have hst2 : (processMessage st t ⟨u, msg⟩).2 u = (rlCheck t (st u)).2 := by
      rw [processMessage_state]
      simp [Function.update]
    have hverd := processMessage_verdict st t ⟨u, msg⟩
    have ihs := ih (processMessage st t ⟨u, msg⟩).2
    rw [hst2] at ihs
    constructor
    · show (decide ((processMessage st t ⟨u, msg⟩).1 = ⟨false, "rate_limited", 1, "rate_limit"⟩)) ::
        ((runFilter (processMessage st t ⟨u, msg⟩).2 (ts.map fun t => (t, ⟨u, msg⟩))).1.map
          fun r => decide (r = ⟨false, "rate_limited", 1, "rate_limit"⟩)) =
        (rlCheck t (st u)).1 :: (runBucket (rlCheck t (st u)).2 ts).1
      rw [hverd, ihs.1]
    · show (runFilter (processMessage st t ⟨u, msg⟩).2 (ts.map fun t => (t, ⟨u, msg⟩))).2 u =
        (runBucket (rlCheck t (st u)).2 ts).2
      exact ihs.2

/-! ## Claims -/

/-- Claim C1 (code bug).  The spec requires the `user_violations` upsert
keyed on `user_id` to insert a first row with `violation_count = 1` and add
one per later decision with confidence above one half; the code's own
`INSERT ... ON CONFLICT (user_id) DO UPDATE` states that intent, but
`create_tables` declares no unique constraint on `user_id` (only a plain
index), so under PostgreSQL the statement always fails with SQLSTATE 42P10
and no row is ever written: after three decisions with confidences
0.9, 0.8, 0.7 the user has zero rows instead of one row with count 3.
With the unique constraint the spec requires, the same three decisions
produce exactly one row with `violation_count = 3`. -/
theorem userViolations_upsert_never_writes :
    createTablesSchema.uniqueUserId = false
    ∧ updateUserHistory createTablesSchema [] ("u1") (9 / 10) =
        .error ("there is no unique or exclusion constraint matching the ON CONFLICT specification")
    ∧ rowsFor (runDecisions createTablesSchema ("u1") [] [9 / 10, 8 / 10, 7 / 10]) ("u1") = 0
    ∧ rowsFor (runDecisions ⟨true⟩ ("u1") [] [9 / 10, 8 / 10, 7 / 10]) ("u1") = 1
    ∧ violationCountOf (runDecisions ⟨true⟩ ("u1") [] [9 / 10, 8 / 10, 7 / 10]) ("u1") = 3 := by
  refine ⟨rfl, rfl, ?_, ?_, ?_⟩ <;> decide

/-- Claim C2 counterexample.  A decision with severity `high` and
confidence 0.5 for a user with stored `violation_count = 3` (at most 5, so
escalation does not fire) is assigned action `warn`, which is not in the
severity's allowed set `{timeout, kick}` — the claim's membership assertion
fails on the fallback branch of `_get_base_action`. -/
theorem baseAction_escapes_allowed_set :
    (3 : Nat) ≤ 5
    ∧ determineAction (some 3) ⟨"u1", "Toxic", 1 / 2, "high"⟩ = "warn"
    ∧ ("warn" ∉ severityActions ("high")) := by
  refine ⟨by decide, by decide, by decide⟩

/-- Claim C2 (amended).  While escalation does not fire, the chosen action
is the first of ban, kick, timeout, warn that is both allowed by the
severity and meets its confidence threshold; when no allowed action meets
its threshold the fallback is `warn` (which for severities high and
critical lies outside the allowed set); whenever some allowed action meets
its threshold, the chosen action is in the allowed set. -/
theorem baseAction_first_eligible_or_warn (d : ModerationDecision) (vc : Nat) (h : vc ≤ 5) :
    determineAction (some vc) d =
      (actionOrder.filter fun a =>
        (severityActions d.severity).contains a && decide (actionThresholds a ≤ d.confidence)).headD "warn"
    ∧ ((actionOrder.filter fun a =>
        (severityActions d.severity).contains a && decide (actionThresholds a ≤ d.confidence)) ≠ [] →
       determineAction (some vc) d ∈ severityActions d.severity) := by
  have hvc : ¬ (5 < vc) := by omega
  have hda : determineAction (some vc) d = getBaseAction d.confidence d.severity := by
    simp [determineAction, hvc]
  constructor
  · rw [hda]
    exact firstAction_eq_filter_headD d.confidence (severityActions d.severity) actionOrder
  · intro hne
    rw [hda]
    unfold getBaseAction
    rw [firstAction_eq_filter_headD d.confidence (severityActions d.severity) actionOrder]
    set fl := actionOrder.filter fun a =>
      (severityActions d.severity).contains a && decide (actionThresholds a ≤ d.confidence) with hfl
    have hmem : fl.headD "warn" ∈ fl := by
      cases hcase : fl with
      | nil => exact absurd hcase hne
      | cons x xs => simp
    have hpred := List.of_mem_filter (by rw [hfl] at hmem; exact hmem)
    have := (Bool.and_eq_true _ _).mp hpred
    exact List.mem_of_elem_eq_true this.1

/-- Witness for the amended C2: a medium-severity decision with confidence
0.85 and violation count 0 resolves to the head of the eligible list. -/
theorem baseAction_first_eligible_or_warn_witness :
    determineAction (some 0) ⟨"u1", "Toxic", 85 / 100, "medium"⟩ =
      (actionOrder.filter fun a =>
        (severityActions ("medium")).contains a && decide (actionThresholds a ≤ (85 : ℚ) / 100)).headD "warn"
    ∧ ((actionOrder.filter fun a =>
        (severityActions ("medium")).contains a && decide (actionThresholds a ≤ (85 : ℚ) / 100)) ≠ [] →
       determineAction (some 0) ⟨"u1", "Toxic", 85 / 100, "medium"⟩ ∈ severityActions ("medium")) :=
  baseAction_first_eligible_or_warn ⟨"u1", "Toxic", 85 / 100, "medium"⟩ 0 (by decide)

/-- Claim C9.  When the stored `violation_count` exceeds 5, the executed
action is the one-step escalation of the base action under
warn → timeout → kick → ban → ban, and its rank in the order
warn < timeout < kick < ban is at least the base action's rank. -/
theorem escalation_monotone (d : ModerationDecision) (vc : Nat) (h : 5 < vc) :
    determineAction (some vc) d = escalateAction (getBaseAction d.confidence d.severity)
    ∧ actionRank (getBaseAction d.confidence d.severity) ≤ actionRank (determineAction (some vc) d) := by
  have hda : determineAction (some vc) d = escalateAction (getBaseAction d.confidence d.severity) := by
    simp [determineAction, h]
  refine ⟨hda, ?_⟩
  rw [hda]
  rcases firstAction_mem d.confidence (severityActions d.severity) actionOrder with hw | hm
  · unfold getBaseAction
    rw [hw]; decide
  · unfold getBaseAction
    simp only [actionOrder, List.mem_cons, List.not_mem_nil, or_false] at hm
    simp only [actionOrder]
    rcases hm with h1 | h1 | h1 | h1 <;> rw [h1] <;> decide

/-- Witness for C9: spec scenario 6 — `violation_count = 6`, decision
`{Toxic, 0.35, medium}`: base action `warn`, executed action `timeout`. -/
theorem escalation_monotone_witness :
    (determineAction (some 6) ⟨"u1", "Toxic", 35 / 100, "medium"⟩ =
        escalateAction (getBaseAction (35 / 100) ("medium"))
      ∧ actionRank (getBaseAction (35 / 100) ("medium")) ≤
          actionRank (determineAction (some 6) ⟨"u1", "Toxic", 35 / 100, "medium"⟩))
    ∧ getBaseAction (35 / 100) ("medium") = "warn"
    ∧ determineAction (some 6) ⟨"u1", "Toxic", 35 / 100, "medium"⟩ = "timeout" :=
  ⟨escalation_monotone ⟨"u1", "Toxic", 35 / 100, "medium"⟩ 6 (by decide), by decide, by decide⟩

/-- Claim C3 (code bug).  A message hitting the injection blacklist (here
`"###"`) or longer than 2000 characters is rejected before any template
rendering or LLM call (the returned flag records that the backend oracle
was never consulted, for every oracle), but the rejection does not surface
as a 400-equivalent error: the `HTTPException(400, "Invalid input
detected")` raised inside `process_moderation_request` is caught by that
method's own blanket `except Exception` and re-raised as status 500 with
detail `"400: Invalid input detected"`. -/
theorem validation_rejects_before_llm_as_500 (llm : String → Except String String) :
    processModerationRequest llm ⟨"### hello", "u1", "c1", "moderation_prompt"⟩ =
      (.error ⟨500, "400: Invalid input detected"⟩, false)
    ∧ validateInput ⟨"### hello", "u1", "c1", "moderation_prompt"⟩ = false
    ∧ validateInput ⟨longMsg, "u1", "c1", "moderation_prompt"⟩ = false := by
  refine ⟨rfl, rfl, ?_⟩
  have hlen : longMsg.length = 2001 := by
    show (List.replicate 2001 'a').length = 2001
    rw [List.length_replicate]
  cases h : injectionPatterns.any (fun p => strContains (lowerStr longMsg) p) <;>
    simp only [validateInput, h, hlen] <;> norm_num

/-- Witness for C3 at a concrete oracle. -/
theorem validation_rejects_before_llm_as_500_witness :
    processModerationRequest (fun _ => .ok ("unused")) ⟨"### hello", "u1", "c1", "moderation_prompt"⟩ =
      (.error ⟨500, "400: Invalid input detected"⟩, false) :=
  (validation_rejects_before_llm_as_500 (fun _ => .ok ("unused"))).1

/-- Claim C4 counterexample.  On an internal exception the chat-simulator's
`send_to_filter` fail-open dict is `{should_process: True, filter_decision:
"pass"}` with no `confidence` key, not the `{should_process: true,
decision: "pass", confidence: 0.5}` the claim states; and the filter
service's own `/filter` endpoint does fail the message, re-raising the
exception as HTTP 500 rather than returning a verdict. -/
theorem filter_failopen_lacks_confidence :
    sendToFilter (.error ("connection refused")) = ⟨true, "pass", none⟩
    ∧ sendToFilter (.error ("connection refused")) ≠ ⟨true, "pass", some (1 / 2)⟩
    ∧ filterEndpoint (.error ("boom")) = .error (500, "boom") :=
  ⟨rfl, by decide, rfl⟩

/-- Claim C4 (amended).  On an internal exception the `/filter` endpoint
itself fails the request with HTTP 500; the caller (`send_to_filter` in the
chat simulator) converts any filter failure into the fail-open verdict
`{should_process: true, decision: "pass"}` carrying no confidence value, so
the message still proceeds to the LLM. -/
theorem filter_failopen_amended (e : String) :
    filterEndpoint (.error e) = .error (500, e)
    ∧ sendToFilter (.error e) = ⟨true, "pass", none⟩
    ∧ (sendToFilter (.error e)).should_process = true :=
  ⟨rfl, rfl, rfl⟩

/-- Witness for the amended C4. -/
theorem filter_failopen_amended_witness :
    filterEndpoint (.error ("timeout")) = .error (500, "timeout")
    ∧ sendToFilter (.error ("timeout")) = ⟨true, "pass", none⟩
    ∧ (sendToFilter (.error ("timeout"))).should_process = true :=
  filter_failopen_amended ("timeout")

/-- Claim C5 counterexample.  The message `"You are an idiot"` under
default config hits a banned word, so the keyword stage reports
`likely_toxic`, but `process_message` then rewrites the decision: the
verdict the filter returns has `filter_decision = "flagged"`, not
`"likely_toxic"` as the claim states. -/
theorem toxic_hit_returns_flagged :
    (processMessage (fun _ => []) 0 ⟨"u1", "You are an idiot"⟩).1.filter_decision = "flagged"
    ∧ ("flagged" : String) ≠ "likely_toxic"
    ∧ (processMessage (fun _ => []) 0 ⟨"u1", "You are an idiot"⟩).1 =
        ⟨true, "flagged", 8 / 10, "combined"⟩ :=
  ⟨by decide, by decide, by decide⟩

/-- Claim C5 (amended).  For a non-rate-limited message with a toxic or
banned hit and no PII, the keyword stage yields
`{should_process: true, decision: likely_toxic, confidence: 0.8}`, and the
filter's returned verdict is
`{should_process: true, decision: "flagged", confidence: 0.8,
filter_type: "combined"}` — the combined stage renames the decision. -/
theorem toxic_hit_flagged_amended (st : RLState) (now : ℚ) (req : FilterRequest)
    (hrl : (rlCheck now (st req.user_id)).1 = false)
    (hpii : checkPatterns req.message piiPatterns = false)
    (htox : (checkPatterns req.message toxicPatterns || (checkBannedWords req.message).1) = true) :
    keywordFilterMessage req.message = ⟨true, "likely_toxic", 8 / 10⟩
    ∧ (processMessage st now req).1 = ⟨true, "flagged", 8 / 10, "combined"⟩ := by
  have hk : keywordFilterMessage req.message = ⟨true, "likely_toxic", 8 / 10⟩ := by
    unfold keywordFilterMessage
    dsimp only
    rw [hpii, htox]
    simp
  have hm1 : max ((8 : ℚ) / 10) ((7 : ℚ) / 10) = 8 / 10 := max_eq_left (by norm_num)
  have hm2 : max ((8 : ℚ) / 10) (0 : ℚ) = 8 / 10 := max_eq_left (by norm_num)
  refine ⟨hk, ?_⟩
  cases hp : containsProfanity req.message <;>
    simp [processMessage, isRateLimited, hrl, hk, hp, hm1, hm2]

/-- Witness for the amended C5: the concrete message `"You are an idiot"`
from a fresh user. -/
theorem toxic_hit_flagged_amended_witness :
    keywordFilterMessage "You are an idiot" = ⟨true, "likely_toxic", 8 / 10⟩
    ∧ (processMessage (fun _ => []) 0 ⟨"u1", "You are an idiot"⟩).1 =
        ⟨true, "flagged", 8 / 10, "combined"⟩ :=
  toxic_hit_flagged_amended (fun _ => []) 0 ⟨"u1", "You are an idiot"⟩
    (by decide) (by decide) (by decide)

/-- Claim C7.  A non-rate-limited message matching a PII pattern is blocked
with `{should_process: false, decision: block_pii, confidence: 0.95,
filter_type: keyword}`, regardless of any simultaneous toxic, banned-word
or spam match (the PII branch is first in the decision chain). -/
theorem pii_blocks_with_priority (st : RLState) (now : ℚ) (req : FilterRequest)
    (hrl : (rlCheck now (st req.user_id)).1 = false)
    (hpii : checkPatterns req.message piiPatterns = true) :
    (processMessage st now req).1 = ⟨false, "block_pii", 95 / 100, "keyword"⟩ := by
  have hk : keywordFilterMessage req.message = ⟨false, "block_pii", 95 / 100⟩ := by
    unfold keywordFilterMessage
    dsimp only
    rw [hpii]
    simp
  simp [processMessage, isRateLimited, hrl, hk]

/-- Witness for C7: spec scenario 1, `"My email is jane@acme.io"` from a
fresh user. -/
theorem pii_blocks_with_priority_witness :
    (processMessage (fun _ => []) 0 ⟨"u1", "My email is jane@acme.io"⟩).1 =
      ⟨false, "block_pii", 95 / 100, "keyword"⟩ :=
  pii_blocks_with_priority (fun _ => []) 0 ⟨"u1", "My email is jane@acme.io"⟩
    (by decide) (by decide)

/-- Claim C6.  A `/filter` call is answered with
`{should_process: false, decision: rate_limited, confidence: 1.0,
filter_type: rate_limit}` exactly when, after pruning the caller's bucket
of entries older than 60 seconds and inserting the call's timestamp, the
bucket holds more than 10 entries; consequently, for a fresh user and
non-decreasing call times, whenever more than 10 of the user's calls fall
within one 60-second window the last of them is rate-limited — so at most
10 calls are accepted inside any such window (in particular the 11th of 11
calls within 5 seconds). -/
theorem rate_limit_window_bound :
    (∀ (st : RLState) (now : ℚ) (req : FilterRequest),
      (processMessage st now req).1 = ⟨false, "rate_limited", 1, "rate_limit"⟩ ↔
        maxMessagesPerWindow < (pruneBucket now (st req.user_id) ++ [now]).length)
    ∧ (∀ (st : RLState) (u msg : String) (pre : List ℚ) (ti : ℚ) (rest : List ℚ) (tj : ℚ),
      st u = [] →
      List.Sorted (· ≤ ·) (pre ++ (ti :: (rest ++ [tj]))) →
      tj - ti < rateLimitWindow →
      maxMessagesPerWindow < rest.length + 2 →
      (runFilter st ((pre ++ (ti :: (rest ++ [tj]))).map fun t => (t, ⟨u, msg⟩))).1.getLast? =
        some ⟨false, "rate_limited", 1, "rate_limit"⟩) := by
  constructor
  · intro st now req
    have hv := processMessage_verdict st now req
    constructor
    · intro he
      rw [he] at hv
      have hb : (rlCheck now (st req.user_id)).1 = true := by
        rw [← hv]; simp
      exact of_decide_eq_true hb
    · intro hl
      have hb : (rlCheck now (st req.user_id)).1 = true := decide_eq_true hl
      rw [hb] at hv
      exact of_decide_eq_true hv
  · intro st u msg pre ti rest tj h0 hs hw hn
    have hmid : List.Pairwise (· ≤ ·) (ti :: (rest ++ [tj])) :=
      ((List.pairwise_append).mp hs).2.1
    have hti : ∀ b ∈ rest ++ [tj], ti ≤ b := (List.pairwise_cons.mp hmid).1
    have hall : ∀ t ∈ ti :: (rest ++ [tj]), decide (tj - t < rateLimitWindow) = true := by
      intro t ht
      rcases List.mem_cons.mp ht with rfl | ht2
      · exact decide_eq_true hw
      · have h1 : ti ≤ t := hti t ht2
        exact decide_eq_true (lt_of_le_of_lt (by linarith) hw)
    have hassoc : pre ++ (ti :: (rest ++ [tj])) = (pre ++ (ti :: rest)) ++ [tj] := by
      simp
    rw [hassoc] at hs
    have hconst := (runFilter_const_user u msg (pre ++ (ti :: (rest ++ [tj]))) st).1
    rw [h0, hassoc] at hconst
    have hbe := runBucket_bucket_eq (pre ++ (ti :: rest)) tj hs
    have hlv := runBucket_last_verdict (pre ++ (ti :: rest)) tj
    rw [hbe] at hlv
    have hflen : rest.length + 2 ≤
        (((pre ++ (ti :: rest)) ++ [tj]).filter fun t => decide (tj - t < rateLimitWindow)).length := by
      rw [← hassoc, List.filter_append]
      rw [List.filter_eq_self.mpr hall]
      simp only [List.length_append, List.length_cons]
      omega
    have hdec : decide (maxMessagesPerWindow <
        (((pre ++ (ti :: rest)) ++ [tj]).filter fun t => decide (tj - t < rateLimitWindow)).length) = true :=
      decide_eq_true (lt_of_lt_of_le hn hflen)
    rw [hdec] at hlv
    rw [hassoc]
    have hmap := congrArg List.getLast? hconst
    rw [List.getLast?_map] at hmap
    rw [hlv] at hmap
    cases hcase : (runFilter st (((pre ++ (ti :: rest)) ++ [tj]).map fun t => (t, ⟨u, msg⟩))).1.getLast? with
    | none => rw [hcase] at hmap; exact absurd hmap (by simp)
    | some r =>
      rw [hcase] at hmap
      have hr : decide (r = (⟨false, "rate_limited", 1, "rate_limit"⟩ : FilterResponse)) = true :=
        Option.some.inj hmap
      exact congrArg some (of_decide_eq_true hr)

/-- Witness for C6: part 1 at a pre-filled bucket of ten timestamps (the
11th submission in the window is refused), and part 2 on 11 calls of one
user within 5 seconds — the 11th verdict is the rate-limited record. -/
theorem rate_limit_window_bound_witness :
    (processMessage (fun _ => [0, 0, 0, 0, 0, 0, 0, 0, 0, 0]) 5 ⟨"u9", "hi"⟩).1 =
      ⟨false, "rate_limited", 1, "rate_limit"⟩
    ∧ (runFilter (fun _ => [])
        (([0, 1/2, 1, 3/2, 2, 5/2, 3, 7/2, 4, 9/2, 5] : List ℚ).map
          fun t => (t, ⟨"u7", "hello"⟩))).1.getLast? =
      some ⟨false, "rate_limited", 1, "rate_limit"⟩ :=
  ⟨(rate_limit_window_bound.1 (fun _ => [0, 0, 0, 0, 0, 0, 0, 0, 0, 0]) 5 ⟨"u9", "hi"⟩).mpr
      (by decide),
   rate_limit_window_bound.2 (fun _ => []) "u7" "hello" [] 0
      [1/2, 1, 3/2, 2, 5/2, 3, 7/2, 4, 9/2] 5 rfl (by decide) (by decide) (by decide)⟩

/-- Claim C10.  Every rate-limit check appends the current timestamp before
deciding: after a sorted sequence of calls ending at time `T`, the user's
bucket is exactly the list of all submitted timestamps — accepted or
rejected — within the last 60 seconds of `T`, and the verdict of the final
call is the capacity comparison on that post-insertion bucket. -/
theorem rate_limit_bucket_invariant (ts : List ℚ) (T : ℚ)
    (h : List.Sorted (· ≤ ·) (ts ++ [T])) :
    (runBucket [] (ts ++ [T])).2 = (ts ++ [T]).filter (fun t => decide (T - t < rateLimitWindow))
    ∧ (runBucket [] (ts ++ [T])).1.getLast? =
        some (decide (maxMessagesPerWindow <
          (((ts ++ [T]).filter fun t => decide (T - t < rateLimitWindow)).length))) := by
  have hb := runBucket_bucket_eq ts T h
  refine ⟨hb, ?_⟩
  rw [runBucket_last_verdict ts T, hb]

/-- Witness for C10: three earlier calls at 0, 30 and 100 and a final call
at 110 — the bucket keeps exactly 100 and 110. -/
theorem rate_limit_bucket_invariant_witness :
    ((runBucket [] (([0, 30, 100] : List ℚ) ++ [110])).2 =
        (([0, 30, 100] : List ℚ) ++ [110]).filter (fun t => decide ((110 : ℚ) - t < rateLimitWindow))
      ∧ (runBucket [] (([0, 30, 100] : List ℚ) ++ [110])).1.getLast? =
          some (decide (maxMessagesPerWindow <
            (((([0, 30, 100] : List ℚ) ++ [110]).filter
              fun t => decide ((110 : ℚ) - t < rateLimitWindow)).length))))
    ∧ (runBucket [] (([0, 30, 100] : List ℚ) ++ [110])).2 = [100, 110] :=
  ⟨rate_limit_bucket_invariant [0, 30, 100] 110 (by decide), by decide⟩

/-- Claim C8.  For LLM content that is not directly parseable as JSON the
fallback ladder extracts an embedded object, fenced ```json``` block first:
on the spec's scenario-4 content the full `/moderate` path returns decision
`Toxic` with confidence 0.92 (not an Error verdict), and on content where a
brace-delimited `"decision"` object occurs before a fenced json block, the
fenced block still wins because its pattern is tried first. -/
theorem llm_json_extraction_fenced_first :
    jsonLoads fencedToxicContent = none
    ∧ searchP1 fencedToxicContent =
        some ("\x7b\"decision\": \"Toxic\", \"confidence\": 0.92, \"reasoning\": \"slur\"\x7d")
    ∧ processModerationRequest (fun _ => .ok fencedToxicContent)
        ⟨"You are an idiot", "u1", "c1", "moderation_prompt"⟩ =
      (.ok ⟨"Toxic", 92 / 100, "slur", "1.0"⟩, true)
    ∧ ("Toxic" : String) ≠ "Error"
    ∧ searchP3 twoObjectContent = some ("\x7b\"decision\": \"Non-Toxic\", \"confidence\": 0.1\x7d")
    ∧ extractResponseData twoObjectContent =
        .obj [("decision", .str ("Toxic")), ("confidence", .num (92 / 100))] :=
  ⟨rfl, rfl, rfl, by decide, rfl, rfl⟩

end Moderation
